import Mathlib

/-!
Verification development for the ChatTNT transcription bot (`src/main.py`).

The bot's media-normalisation, transcription, pagination and session logic is
shallowly embedded below.  External effects (ffprobe results, ffmpeg cut
success, HTTP responses, poll statuses) are passed in explicitly through
environment records; machine floats (audio durations) are modelled as
rationals.
-/

namespace ChatTNT

/-- Constant `MAX_SEGMENT_LENGTH_SEC = 2 * 60` from `src/main.py` line 68. -/
def MAX_SEGMENT_LENGTH_SEC : ℚ := 2 * 60

/-- The distinct file paths `split_audio_file` can mention.  Every ffmpeg
output file gets a fresh uuid name in the source, so the outputs of the
different branches are pairwise distinct paths. -/
inductive APath where
  /-- the `file_path` argument passed to `split_audio_file` -/
  | input
  /-- mp3 produced by the `duration_sec <= 0` repair conversion (line 212) -/
  | repaired
  /-- mp3 from the whole-file conversion in the short-file branch (line 229) -/
  | shortConv
  /-- output of the cut for segment `i` (line 250; the retry reuses the path) -/
  | segment (i : ℕ)
  /-- mp3 from the zero-segments fallback conversion (line 294) -/
  | zeroFallbackConv
  /-- mp3 from the conversion inside the `except` handler (line 311) -/
  | excConv
deriving DecidableEq

/-- Environment of external effects observed by one `split_audio_file` call.
`duration` is the ffprobe result for the input (the `get_audio_duration`
sentinel `MAX + 1` on probe failure is just one possible value);
`durationRepaired` is the ffprobe result for the repaired file, consulted only
when `duration ≤ 0`.  `cutOk i` / `retryOk i` say whether the primary / retry
ffmpeg cut for segment `i` produced a non-empty file.  `zeroFallbackConvOk`
records whether the zero-segments fallback conversion produced a non-empty
file — the source never checks this (lines 290-303).  `raises` models an
exception escaping the main `try` body (e.g. a missing ffmpeg binary), taken
at entry; `excRaises` / `excConvOk` drive the `except` handler's inner
`try` (lines 310-323). -/
structure SplitEnv where
  duration : ℚ
  durationRepaired : ℚ
  cutOk : ℕ → Bool
  retryOk : ℕ → Bool
  zeroFallbackConvOk : Bool
  raises : Bool
  excRaises : Bool
  excConvOk : Bool

/-- The duration the splitting logic actually works with: after the
`duration_sec <= 0` repair branch (lines 209-224) re-encodes and re-probes,
`duration_sec` is the repaired file's duration. -/
def effDuration (e : SplitEnv) : ℚ :=
  if e.duration ≤ 0 then e.durationRepaired else e.duration

/-- Embeds `num_segments = math.ceil(duration_sec / MAX_SEGMENT_LENGTH_SEC)`
(line 241). -/
def numSegments (e : SplitEnv) : ℕ :=
  (⌈effDuration e / MAX_SEGMENT_LENGTH_SEC⌉).toNat

/-- Embeds `start_sec = i * MAX_SEGMENT_LENGTH_SEC` (line 248). -/
def segStart (i : ℕ) : ℚ := (i : ℚ) * MAX_SEGMENT_LENGTH_SEC

/-- Audio content covered by segment `i`: ffmpeg `-ss start -t MAX` clamps at
end of file, so the cut holds `[start, start + min MAX (d - start))`. -/
def segLen (e : SplitEnv) (i : ℕ) : ℚ :=
  min MAX_SEGMENT_LENGTH_SEC (effDuration e - segStart i)

/-- The cutting loop (lines 246-288): segment `i` is kept when the primary
cut produced a non-empty file, else when the retry cut did; otherwise it is
skipped. -/
def segmentResults (e : SplitEnv) : List APath :=
  (List.range (numSegments e)).filterMap fun i =>
    if e.cutOk i then some (APath.segment i)
    else if e.retryOk i then some (APath.segment i)
    else none

/-- Function `split_audio_file` (lines 191-326), as a function of the external
effects.  Branch order follows the source: `except` handler; zero-duration
repair folded into `effDuration`; short-file whole-file conversion
(lines 227-238); the cutting loop; the unchecked zero-segments fallback
(lines 290-303). -/
def split_audio_file (e : SplitEnv) : List APath :=
  if e.raises then
    if e.excRaises then [APath.input]
    else if e.excConvOk then [APath.excConv]
    else [APath.input]
  else if effDuration e ≤ MAX_SEGMENT_LENGTH_SEC then [APath.shortConv]
  else if segmentResults e = [] then [APath.zeroFallbackConv]
  else segmentResults e

/-- A benign environment: all cuts succeed, nothing raises. -/
def okEnv (d : ℚ) : SplitEnv :=
  { duration := d
    durationRepaired := d
    cutOk := fun _ => true
    retryOk := fun _ => true
    zeroFallbackConvOk := true
    raises := false
    excRaises := false
    excConvOk := true }

theorem MAX_eq : MAX_SEGMENT_LENGTH_SEC = 120 := by norm_num [MAX_SEGMENT_LENGTH_SEC]

theorem MAX_pos : (0 : ℚ) < MAX_SEGMENT_LENGTH_SEC := by norm_num [MAX_SEGMENT_LENGTH_SEC]

theorem ceil_150_120 : ⌈(150 : ℚ) / 120⌉ = 2 := by
  rw [Int.ceil_eq_iff]
  norm_num

theorem filterMap_some_eq_map {α β : Type} (f : α → β) (l : List α) :
    (l.filterMap fun a => some (f a)) = l.map f := by
  induction l with
  | nil => rfl
  | cons a l ih => simp [List.filterMap_cons, ih]

/-- When every cut succeeds - the primary cut, or failing that the retry cut
(lines 273-288) - the cutting loop keeps all `numSegments e` segments in
order. -/
theorem segmentResults_all_ok (e : SplitEnv)
    (hcut : ∀ i, e.cutOk i = true ∨ e.retryOk i = true) :
    segmentResults e = (List.range (numSegments e)).map APath.segment := by
  unfold segmentResults
  have h : (fun i => if e.cutOk i then some (APath.segment i)
      else if e.retryOk i then some (APath.segment i) else none)
      = fun i => some (APath.segment i) := funext fun i => by
    by_cases hc : e.cutOk i = true
    · simp [hc]
    · rcases hcut i with h | h
      · exact absurd h hc
      · simp [hc, h]
  rw [h, filterMap_some_eq_map]

theorem numSegments_pos (e : SplitEnv) (h : MAX_SEGMENT_LENGTH_SEC < effDuration e) :
    0 < numSegments e := by
  have h0 : 0 < effDuration e / MAX_SEGMENT_LENGTH_SEC :=
    div_pos (MAX_pos.trans h) MAX_pos
  have h1 : 0 < ⌈effDuration e / MAX_SEGMENT_LENGTH_SEC⌉ := Int.ceil_pos.mpr h0
  unfold numSegments
  omega

/-- Every point of `[0, d)` lies in the time range cut for some segment
index below `numSegments e`. -/
theorem segment_coverage (e : SplitEnv) (x : ℚ) (hx0 : 0 ≤ x)
    (hxD : x < effDuration e) :
    ∃ i, i < numSegments e ∧ segStart i ≤ x ∧ x < segStart i + segLen e i := by
  have hM := MAX_pos
  have hj0 : 0 ≤ ⌊x / MAX_SEGMENT_LENGTH_SEC⌋ :=
    Int.floor_nonneg.mpr (div_nonneg hx0 hM.le)
  have hcast : ((⌊x / MAX_SEGMENT_LENGTH_SEC⌋.toNat : ℕ) : ℚ)
      = ((⌊x / MAX_SEGMENT_LENGTH_SEC⌋ : ℤ) : ℚ) := by
    rw [← Int.cast_natCast]
    rw [Int.toNat_of_nonneg hj0]
  refine ⟨⌊x / MAX_SEGMENT_LENGTH_SEC⌋.toNat, ?_, ?_, ?_⟩
  · have h1 : ((⌊x / MAX_SEGMENT_LENGTH_SEC⌋ : ℤ) : ℚ) ≤ x / MAX_SEGMENT_LENGTH_SEC :=
      Int.floor_le _
    have h2 : x / MAX_SEGMENT_LENGTH_SEC < effDuration e / MAX_SEGMENT_LENGTH_SEC :=
      (div_lt_div_iff_of_pos_right hM).mpr hxD
    have h3 : ((⌊x / MAX_SEGMENT_LENGTH_SEC⌋ : ℤ) : ℚ)
        < ((⌈effDuration e / MAX_SEGMENT_LENGTH_SEC⌉ : ℤ) : ℚ) :=
      lt_of_le_of_lt h1 (lt_of_lt_of_le h2 (Int.le_ceil _))
    have h4 : ⌊x / MAX_SEGMENT_LENGTH_SEC⌋ < ⌈effDuration e / MAX_SEGMENT_LENGTH_SEC⌉ := by
      exact_mod_cast h3
    unfold numSegments
    omega
  · show ((⌊x / MAX_SEGMENT_LENGTH_SEC⌋.toNat : ℕ) : ℚ) * MAX_SEGMENT_LENGTH_SEC ≤ x
    rw [hcast]
    have h1 : ((⌊x / MAX_SEGMENT_LENGTH_SEC⌋ : ℤ) : ℚ) ≤ x / MAX_SEGMENT_LENGTH_SEC :=
      Int.floor_le _
    exact (le_div_iff₀ hM).mp h1
  · have h5 : x < (((⌊x / MAX_SEGMENT_LENGTH_SEC⌋ : ℤ) : ℚ) + 1) * MAX_SEGMENT_LENGTH_SEC := by
      have h6 := Int.lt_floor_add_one (x / MAX_SEGMENT_LENGTH_SEC)
      exact (div_lt_iff₀ hM).mp h6
    unfold segLen segStart
    rcases le_total MAX_SEGMENT_LENGTH_SEC
        (effDuration e - ((⌊x / MAX_SEGMENT_LENGTH_SEC⌋.toNat : ℕ) : ℚ) * MAX_SEGMENT_LENGTH_SEC)
      with hc | hc
    · rw [min_eq_left hc, hcast]
      linarith [h5]
    · rw [min_eq_right hc]
      linarith [hxD]

/-- C1 (amended): with no exception and all cuts succeeding, the effective
duration (re-probed after the zero-duration repair) of at most the threshold
yields exactly one returned path; a larger duration yields exactly
`ceil(d/120)` segment paths, the `i`-th cut starting at `i*120` seconds and
together covering `[0, d)` with no gaps.  A cut counts as succeeding when the
primary ffmpeg invocation produces a non-empty file, or, failing that, when
the retry invocation does. -/
theorem split_segments_spec (e : SplitEnv) (hr : e.raises = false)
    (hcut : ∀ i, e.cutOk i = true ∨ e.retryOk i = true) :
    (effDuration e ≤ MAX_SEGMENT_LENGTH_SEC → split_audio_file e = [APath.shortConv]) ∧
    (MAX_SEGMENT_LENGTH_SEC < effDuration e →
      split_audio_file e = (List.range (numSegments e)).map APath.segment ∧
      (split_audio_file e).length = numSegments e ∧
      ∀ x : ℚ, 0 ≤ x → x < effDuration e →
        ∃ i, i < numSegments e ∧ segStart i ≤ x ∧ x < segStart i + segLen e i) := by
  constructor
  · intro h
    simp [split_audio_file, hr, h]
  · intro h
    have hnot : ¬ effDuration e ≤ MAX_SEGMENT_LENGTH_SEC := not_le.mpr h
    have hsr := segmentResults_all_ok e hcut
    have hne : segmentResults e ≠ [] := by
      rw [hsr]
      have hpos := numSegments_pos e h
      have : 0 < ((List.range (numSegments e)).map APath.segment).length := by
        simpa using hpos
      exact List.ne_nil_of_length_pos this
    have hsplit : split_audio_file e = (List.range (numSegments e)).map APath.segment := by
      rw [split_audio_file]
      simp [hr, hnot, hne, hsr]
      intro h0
      exact absurd h0 (by have := numSegments_pos e h; omega)
    refine ⟨hsplit, ?_, ?_⟩
    · rw [hsplit]; simp
    · intro x hx0 hxD
      exact segment_coverage e x hx0 hxD

/-- Environment refuting claim C1 as stated: ffprobe reads a broken container
as duration `0`, the repair re-encode probes as `150` seconds, every cut
succeeds. -/
def splitCexEnv : SplitEnv :=
  { duration := 0
    durationRepaired := 150
    cutOk := fun _ => true
    retryOk := fun _ => true
    zeroFallbackConvOk := true
    raises := false
    excRaises := false
    excConvOk := true }

theorem effDuration_splitCexEnv : effDuration splitCexEnv = 150 := by
  norm_num [effDuration, splitCexEnv]

theorem numSegments_splitCexEnv : numSegments splitCexEnv = 2 := by
  rw [numSegments, effDuration_splitCexEnv, MAX_eq, ceil_150_120]
  rfl

/-- C1 counterexample: a file whose probed duration is `0 ≤ 120` on which
`split_audio_file` nevertheless returns two segment paths, because the
zero-duration repair branch re-probes the re-encoded file as 150 seconds and
splits it. -/
theorem split_probed_duration_cex :
    splitCexEnv.duration ≤ MAX_SEGMENT_LENGTH_SEC ∧
    (split_audio_file splitCexEnv).length = 2 := by
  constructor
  · norm_num [splitCexEnv, MAX_eq]
  · have hr : splitCexEnv.raises = false := rfl
    have hsr := segmentResults_all_ok splitCexEnv (fun i => Or.inl rfl)
    rw [numSegments_splitCexEnv] at hsr
    have hnot : ¬ effDuration splitCexEnv ≤ MAX_SEGMENT_LENGTH_SEC := by
      rw [effDuration_splitCexEnv, MAX_eq]; norm_num
    rw [split_audio_file]
    simp [hr, hnot, hsr, List.range_succ]

/-- Environment for the C1 witness: a healthy 150-second file on which the
primary cut succeeds only for segment 0, and segment 1 is salvaged by the
retry cut. -/
def retryEnv : SplitEnv :=
  { duration := 150
    durationRepaired := 150
    cutOk := fun i => i == 0
    retryOk := fun _ => true
    zeroFallbackConvOk := true
    raises := false
    excRaises := false
    excConvOk := true }

/-- C1 witness: the amended statement instantiated at the 150-second file
above (the spec's own scenario: 2 segments covering `[0,150)`), where the
second segment's primary cut fails and the retry produces it. -/
theorem split_segments_spec_witness :
    split_audio_file retryEnv = (List.range (numSegments retryEnv)).map APath.segment ∧
    (split_audio_file retryEnv).length = numSegments retryEnv ∧
    ∀ x : ℚ, 0 ≤ x → x < effDuration retryEnv →
      ∃ i, i < numSegments retryEnv ∧
        segStart i ≤ x ∧ x < segStart i + segLen retryEnv i := by
  have h150 : effDuration retryEnv = 150 := by norm_num [effDuration, retryEnv]
  exact (split_segments_spec retryEnv rfl (fun i => Or.inr rfl)).2
    (by rw [h150, MAX_eq]; norm_num)

/-- Environment refuting claim C5 as stated: a 150-second file on which every
cut (and retry) fails, and whose whole-file fallback re-encode also fails to
produce a non-empty file. -/
def splitFallbackCexEnv : SplitEnv :=
  { duration := 150
    durationRepaired := 150
    cutOk := fun _ => false
    retryOk := fun _ => false
    zeroFallbackConvOk := false
    raises := false
    excRaises := false
    excConvOk := false }

theorem segmentResults_fallbackCex : segmentResults splitFallbackCexEnv = [] := by
  have h150 : effDuration splitFallbackCexEnv = 150 := by
    norm_num [effDuration, splitFallbackCexEnv]
  rw [segmentResults, numSegments, h150, MAX_eq, ceil_150_120]
  rfl

/-- C5 counterexample: with zero segments produced and the fallback re-encode
failing (`zeroFallbackConvOk = false`), `split_audio_file` still returns the
path of the failed re-encode output — not the original input path; the
re-encode is never verified on this branch (lines 290-303). -/
theorem split_fallback_cex :
    split_audio_file splitFallbackCexEnv = [APath.zeroFallbackConv] ∧
    splitFallbackCexEnv.zeroFallbackConvOk = false ∧
    [APath.zeroFallbackConv] ≠ [APath.input] := by
  refine ⟨?_, rfl, by decide⟩
  have hr : splitFallbackCexEnv.raises = false := rfl
  have hnot : ¬ effDuration splitFallbackCexEnv ≤ MAX_SEGMENT_LENGTH_SEC := by
    norm_num [effDuration, splitFallbackCexEnv, MAX_eq]
  rw [split_audio_file]
  simp [hr, hnot, segmentResults_fallbackCex]

/-- Environment for the exception path: the main `try` body raises, and the
handler's re-encode check finds no usable file. -/
def splitExcCexEnv : SplitEnv :=
  { duration := 150
    durationRepaired := 150
    cutOk := fun _ => false
    retryOk := fun _ => false
    zeroFallbackConvOk := false
    raises := true
    excRaises := false
    excConvOk := false }

/-- C5 (amended): when the cutting loop produces zero segments on the
non-exception path, `split_audio_file` returns the whole-file re-encode path
unconditionally — without verifying that the re-encode succeeded; only on the
exception path does the function check the re-encode and return the original
input path when that check fails. -/
theorem split_zero_segments_fallback (e e2 : SplitEnv)
    (hr : e.raises = false) (hd : MAX_SEGMENT_LENGTH_SEC < effDuration e)
    (hz : segmentResults e = [])
    (g1 : e2.raises = true) (g2 : e2.excRaises = false) (g3 : e2.excConvOk = false) :
    split_audio_file e = [APath.zeroFallbackConv] ∧
    split_audio_file e2 = [APath.input] := by
  constructor
  · rw [split_audio_file]
    simp [hr, not_le.mpr hd, hz]
  · rw [split_audio_file]
    simp [g1, g2, g3]

/-- C5 witness: the amended statement at the two concrete environments. -/
theorem split_zero_segments_fallback_witness :
    split_audio_file splitFallbackCexEnv = [APath.zeroFallbackConv] ∧
    split_audio_file splitExcCexEnv = [APath.input] :=
  split_zero_segments_fallback splitFallbackCexEnv splitExcCexEnv rfl
    (by norm_num [effDuration, splitFallbackCexEnv, MAX_eq])
    segmentResults_fallbackCex rfl rfl rfl

/-- C10: every branch of `split_audio_file` — short file, segment loop,
zero-segments fallback, exception fallback — returns at least one path, so a
caller may always index the first element. -/
theorem split_audio_file_nonempty (e : SplitEnv) :
    0 < (split_audio_file e).length := by
  rw [split_audio_file]
  split
  · split
    · simp
    · split <;> simp
  · split
    · simp
    · split
      · simp
      · rename_i h
        exact List.length_pos.mpr h

/-! ### Pagination (claim C2)

`handle_action_selection` slices text into pages of 3000 characters:
`pages = [text[i:i+page_size] for i in range(0, len(text), page_size)]`
(lines 747-750 for the transcription, 819-821 for the ChatGPT result).
Python strings are embedded as `List Char`; `range(0, L, n)` for `n > 0` has
`(L + n - 1) / n` elements (`0, n, 2n, …`), which `List.range'` mirrors, and
the slice `text[i:i+n]` is `(s.drop i).take n`. -/

/-- The page-slicing comprehension from lines 747-750 / 819-821. -/
def paginate (s : List Char) (n : ℕ) : List (List Char) :=
  (List.range' 0 ((s.length + n - 1) / n) n).map fun i => (s.drop i).take n

theorem paginate_join_aux (n : ℕ) :
    ∀ (k : ℕ) (s : List Char),
      ((List.range' 0 k n).map fun i => (s.drop i).take n).flatten = s.take (k * n) := by
  intro k
  induction k with
  | zero => intro s; simp
  | succ k ih =>
    intro s
    rw [List.range'_succ, List.map_cons, List.flatten_cons, Nat.zero_add]
    have hshift : List.range' n k n = (List.range' 0 k n).map fun x => n + x := by
      rw [List.map_add_range', Nat.add_zero]
    rw [hshift, List.map_map]
    have hcomp : ((fun i => (s.drop i).take n) ∘ fun x => n + x)
        = fun i => ((s.drop n).drop i).take n := by
      funext i
      simp [Function.comp, List.drop_drop]
    rw [hcomp, ih (s.drop n), List.drop_zero, Nat.succ_mul, Nat.add_comm (k * n) n,
      ← List.take_add]

/-- For `L > 0` and `n > 0`, the number of pages `(L + n - 1) / n` is
`L / n` rounded up. -/
theorem nat_ceil_div (L n : ℕ) (hn : 0 < n) :
    ⌈(L : ℚ) / n⌉₊ = (L + n - 1) / n := by
  rcases L with _ | m
  · rw [Nat.zero_add, Nat.div_eq_of_lt (by omega)]
    simp
  · have hq : (0 : ℚ) < n := by exact_mod_cast hn
    have hcount : (m + 1 + n - 1) / n = m / n + 1 := by
      have : m + 1 + n - 1 = m + n := by omega
      rw [this, Nat.add_div_right m hn]
    rw [hcount]
    rw [Nat.ceil_eq_iff (Nat.succ_ne_zero _)]
    constructor
    · show ((m / n + 1 - 1 : ℕ) : ℚ) < (((m : ℕ) + 1 : ℕ) : ℚ) / n
      rw [lt_div_iff₀ hq]
      have h1 : (m / n) * n ≤ m := Nat.div_mul_le_self m n
      push_cast
      have h1q : ((m / n : ℕ) : ℚ) * n ≤ m := by exact_mod_cast h1
      linarith
    · show (((m : ℕ) + 1 : ℕ) : ℚ) / n ≤ ((m / n + 1 : ℕ) : ℚ)
      rw [div_le_iff₀ hq]
      have h2 : m < (m / n + 1) * n := (Nat.div_lt_iff_lt_mul hn).mp (Nat.lt_succ_self _)
      have h2q : ((m : ℕ) : ℚ) + 1 ≤ ((m / n + 1 : ℕ) : ℚ) * n := by
        push_cast
        have : ((m : ℕ) : ℚ) + 1 ≤ (((m / n + 1) * n : ℕ) : ℚ) := by exact_mod_cast h2
        push_cast at this
        linarith
      push_cast
      push_cast at h2q
      linarith

theorem pages_cover_length (L n : ℕ) (hn : 0 < n) : L ≤ ((L + n - 1) / n) * n := by
  rcases L with _ | m
  · simp
  · have hcount : (m + 1 + n - 1) / n = m / n + 1 := by
      have : m + 1 + n - 1 = m + n := by omega
      rw [this, Nat.add_div_right m hn]
    rw [hcount]
    have h2 : m < (m / n + 1) * n := (Nat.div_lt_iff_lt_mul hn).mp (Nat.lt_succ_self _)
    omega

/-- C2: paginating any string with page size 3000 yields exactly
`ceil(L/3000)` pages whose concatenation is the original string (including
`L = 0`, which yields zero pages). -/
theorem paginate_spec (s : List Char) :
    (paginate s 3000).length = ⌈(s.length : ℚ) / 3000⌉₊ ∧
    (paginate s 3000).flatten = s := by
  constructor
  · have h := nat_ceil_div s.length 3000 (by norm_num)
    rw [paginate, List.length_map, List.length_range']
    exact_mod_cast h.symm
  · rw [paginate, paginate_join_aux]
    exact List.take_of_length_le (pages_cover_length s.length 3000 (by norm_num))

/-! ### Transcription client (claim C3)

`transcribe_with_assemblyai` (lines 373-558): compress when the file exceeds
20 MB, upload, create the remote job, poll until a terminal status, and in a
`finally` block remove the file named by the *current* value of `audio_path`.
Non-2xx responses and raised request exceptions on upload/create both end in
a failure return, so they are folded into the `uploadOk` / `createOk` flags;
a poll HTTP error is one possible element of the poll-response stream. -/

/-- Local files a transcription job touches. -/
inductive TPath where
  /-- the `audio_path` argument passed into the function -/
  | input
  /-- the 64k mp3 written by the oversize compression (line 400) -/
  | compressed
deriving DecidableEq

/-- One response of the polling loop's `GET /transcript/{id}` (lines 500-538). -/
inductive PollResp where
  /-- non-200 status: fatal, aborts the job -/
  | httpErr (msg : String)
  /-- a non-terminal `status` (`queued` / `processing`): keep polling -/
  | processing
  /-- Status `completed` with the text and detected language -/
  | completed (text lang : String)
  /-- Status `error` with the remote error message -/
  | failed (err : String)
deriving DecidableEq

/-- External effects seen by one `transcribe_with_assemblyai` call.
`fileSize` is `os.path.getsize(audio_path)`; `compressOk` whether the 64k
re-encode produced a non-empty file; `uploadOk` / `createOk` whether the two
POSTs succeeded; `polls` the stream of poll responses. -/
structure TEnv where
  fileSize : ℕ
  compressOk : Bool
  uploadOk : Bool
  createOk : Bool
  polls : List PollResp

/-- Result of a terminated call: the returned `(success, text)` pair, the
value `audio_path` holds when the `finally` block runs, and the list of
local files the `finally` block removes. -/
structure TOutcome where
  success : Bool
  text : String
  finalPath : TPath
  removed : List TPath
deriving DecidableEq

/-- Lines 397-419: `audio_path` is reassigned to the compressed copy exactly
when the file exceeds 20 MB and the compression produced a non-empty file. -/
def finalAudioPath (e : TEnv) : TPath :=
  if 20 * 1024 * 1024 < e.fileSize ∧ e.compressOk then TPath.compressed
  else TPath.input

/-- The polling loop (lines 491-541): first terminal response wins; `none`
means the stream never reaches a terminal state and the loop runs forever. -/
def pollLoop : List PollResp → Option (Bool × String)
  | [] => none
  | PollResp.httpErr m :: _ => some (false, "Ошибка при проверке статуса: " ++ m)
  | PollResp.processing :: rest => pollLoop rest
  | PollResp.completed t _ :: _ => some (true, t)
  | PollResp.failed err :: _ => some (false, "Ошибка транскрипции: " ++ err)

/-- Function `transcribe_with_assemblyai` (lines 373-558).  `none` when the polling
loop never terminates (then the `finally` block never runs); otherwise the
outcome, with the `finally` block removing the file `audio_path` names at
that moment (lines 551-558). -/
def transcribe_with_assemblyai (e : TEnv) : Option TOutcome :=
  let fp := finalAudioPath e
  if e.uploadOk = false then
    some { success := false, text := "Ошибка при загрузке файла", finalPath := fp,
           removed := [fp] }
  else if e.createOk = false then
    some { success := false, text := "Ошибка создания задания", finalPath := fp,
           removed := [fp] }
  else
    match pollLoop e.polls with
    | none => none
    | some (succ, txt) =>
        some { success := succ, text := txt, finalPath := fp, removed := [fp] }

/-- A 21 MB upload whose compression succeeds and whose remote job completes. -/
def tCexEnv : TEnv :=
  { fileSize := 21 * 1024 * 1024
    compressOk := true
    uploadOk := true
    createOk := true
    polls := [PollResp.completed "hello" "en"] }

/-- The outcome the model predicts for `tCexEnv`. -/
def tCexOutcome : TOutcome :=
  { success := true
    text := "hello"
    finalPath := TPath.compressed
    removed := [TPath.compressed] }

/-- C3 counterexample: a job that reaches the `completed` terminal state but
in which the local audio file passed into the transcription step
(`TPath.input`) is *not* removed — the `finally` block removes only the
compressed copy, because `audio_path` was reassigned at line 416. -/
theorem transcribe_cleanup_cex :
    transcribe_with_assemblyai tCexEnv = some tCexOutcome ∧
    TPath.input ∉ tCexOutcome.removed := by
  constructor
  · rfl
  · decide

/-- C3 (amended): whenever a terminal outcome is reached — success or any
failure — the file `audio_path` names at that point (the compressed copy when
the oversize compression succeeded, otherwise the passed-in file) is removed
exactly once; when compression replaced the path, the original passed-in
file is not removed. -/
theorem transcribe_cleanup_spec (e : TEnv) (o : TOutcome)
    (h : transcribe_with_assemblyai e = some o) :
    o.removed = [finalAudioPath e] ∧
    o.removed.count (finalAudioPath e) = 1 ∧
    (20 * 1024 * 1024 < e.fileSize ∧ e.compressOk = true →
      TPath.input ∉ o.removed) := by
  have hrem : o.removed = [finalAudioPath e] := by
    rw [transcribe_with_assemblyai] at h
    by_cases hu : e.uploadOk = false
    · simp [hu] at h
      rw [← h]
    · by_cases hc : e.createOk = false
      · simp [hu, hc] at h
        rw [← h]
      · simp [hu, hc] at h
        rcases hp : pollLoop e.polls with _ | p
        · rw [hp] at h; simp at h
        · rw [hp] at h
          simp at h
          rw [← h]
  refine ⟨hrem, ?_, ?_⟩
  · rw [hrem]
    simp
  · intro hcomp
    rw [hrem, finalAudioPath, if_pos (by exact ⟨hcomp.1, hcomp.2⟩)]
    decide

/-- C3 witness: the amended statement at the concrete completed job above. -/
theorem transcribe_cleanup_spec_witness :
    tCexOutcome.removed = [finalAudioPath tCexEnv] ∧
    tCexOutcome.removed.count (finalAudioPath tCexEnv) = 1 ∧
    (20 * 1024 * 1024 < tCexEnv.fileSize ∧ tCexEnv.compressOk = true →
      TPath.input ∉ tCexOutcome.removed) :=
  transcribe_cleanup_spec tCexEnv tCexOutcome rfl

/-! ### Session state and conversation handlers (claims C4, C6, C7, C8, C9)

`user_states` maps a username to a dict of optional keys; a user's dict is
embedded as a record of `Option` fields (a key that was never set, or was
deleted by `clear_state`, is `none`).  Each handler below is the pure state
transition of the corresponding `src/main.py` handler, with the chat
transport's effects returned as an explicit reply value. -/

/-- One user's entry in `user_states` (`get_state` / `set_state` /
`clear_state`, lines 152-171). -/
structure UState where
  transcribing : Option Bool := none
  file_path : Option String := none
  language : Option String := none
  transcription : Option String := none
  transcription_pages : Option (List String) := none
  current_page : Option ℕ := none
  gpt_result_pages : Option (List String) := none
  current_gpt_page : Option ℕ := none
deriving DecidableEq

/-- The three `page_(prev|next|info)` / `gpt_page_(prev|next|info)` callback
actions. -/
inductive NavAction where
  | prev
  | next
  | info
deriving DecidableEq

/-- The ephemeral `callback_query.answer` notice a pagination handler emits. -/
inductive PageNotice where
  /-- Answer "Информация о страницах не найдена" (page data missing) -/
  | pagesNotFound
  /-- Answer "Вы уже на первой странице" (already on the first page) -/
  | alreadyFirst
  /-- Answer "Вы уже на последней странице" (already on the last page) -/
  | alreadyLast
  /-- Answer "Страница cur из total" -/
  | pageInfo (cur total : ℕ)
deriving DecidableEq

/-- Handler `handle_transcription_pagination` (lines 1320-1383): reads
`transcription_pages` (default `[]`) and `current_page` (default `0`),
moves the cursor only when strictly inside the valid range, and answers with
a boundary notice otherwise. -/
def handle_transcription_pagination (st : UState) (act : NavAction) :
    UState × PageNotice :=
  let pages := st.transcription_pages.getD []
  let current := st.current_page.getD 0
  let total := pages.length
  if pages = [] then (st, PageNotice.pagesNotFound)
  else
    match act with
    | NavAction.prev =>
        if 0 < current then
          ({ st with current_page := some (current - 1) },
            PageNotice.pageInfo (current - 1 + 1) total)
        else (st, PageNotice.alreadyFirst)
    | NavAction.next =>
        if current < total - 1 then
          ({ st with current_page := some (current + 1) },
            PageNotice.pageInfo (current + 1 + 1) total)
        else (st, PageNotice.alreadyLast)
    | NavAction.info => (st, PageNotice.pageInfo (current + 1) total)

/-- Handler `handle_gpt_pagination` (lines 1386-1449): identical logic over
`gpt_result_pages` / `current_gpt_page`. -/
def handle_gpt_pagination (st : UState) (act : NavAction) :
    UState × PageNotice :=
  let pages := st.gpt_result_pages.getD []
  let current := st.current_gpt_page.getD 0
  let total := pages.length
  if pages = [] then (st, PageNotice.pagesNotFound)
  else
    match act with
    | NavAction.prev =>
        if 0 < current then
          ({ st with current_gpt_page := some (current - 1) },
            PageNotice.pageInfo (current - 1 + 1) total)
        else (st, PageNotice.alreadyFirst)
    | NavAction.next =>
        if current < total - 1 then
          ({ st with current_gpt_page := some (current + 1) },
            PageNotice.pageInfo (current + 1 + 1) total)
        else (st, PageNotice.alreadyLast)
    | NavAction.info => (st, PageNotice.pageInfo (current + 1) total)

/-- C4: for both paginated buffers, with a cursor inside `[0, pageCount-1]`
every navigation action leaves the cursor inside `[0, pageCount-1]`;
`prev` at page 0 and `next` at the last page leave the state unchanged and
answer with the boundary notice instead of wrapping. -/
theorem pagination_bounds (st : UState) (act : NavAction)
    (hps : st.transcription_pages.getD [] ≠ [])
    (hc : st.current_page.getD 0 < (st.transcription_pages.getD []).length)
    (hqs : st.gpt_result_pages.getD [] ≠ [])
    (hd : st.current_gpt_page.getD 0 < (st.gpt_result_pages.getD []).length) :
    ((handle_transcription_pagination st act).1.current_page.getD 0
        < (st.transcription_pages.getD []).length) ∧
    (act = NavAction.prev → st.current_page.getD 0 = 0 →
      handle_transcription_pagination st act = (st, PageNotice.alreadyFirst)) ∧
    (act = NavAction.next →
      st.current_page.getD 0 = (st.transcription_pages.getD []).length - 1 →
      handle_transcription_pagination st act = (st, PageNotice.alreadyLast)) ∧
    ((handle_gpt_pagination st act).1.current_gpt_page.getD 0
        < (st.gpt_result_pages.getD []).length) ∧
    (act = NavAction.prev → st.current_gpt_page.getD 0 = 0 →
      handle_gpt_pagination st act = (st, PageNotice.alreadyFirst)) ∧
    (act = NavAction.next →
      st.current_gpt_page.getD 0 = (st.gpt_result_pages.getD []).length - 1 →
      handle_gpt_pagination st act = (st, PageNotice.alreadyLast)) := by
  refine ⟨?_, ?_, ?_, ?_, ?_, ?_⟩
  · cases act with
    | prev =>
        by_cases h0 : 0 < st.current_page.getD 0
        · simp [handle_transcription_pagination, hps, h0]
          omega
        · simp [handle_transcription_pagination, hps, h0]
          exact hc
    | next =>
        by_cases h0 : st.current_page.getD 0 < (st.transcription_pages.getD []).length - 1
        · simp [handle_transcription_pagination, hps, h0]
          omega
        · simp [handle_transcription_pagination, hps, h0]
          exact hc
    | info =>
        simp [handle_transcription_pagination, hps]
        exact hc
  · intro ha h0
    subst ha
    simp [handle_transcription_pagination, hps, h0]
  · intro ha h0
    subst ha
    have hnolt : ¬ (st.current_page.getD 0 < (st.transcription_pages.getD []).length - 1) := by
      omega
    simp [handle_transcription_pagination, hps, hnolt]
  · cases act with
    | prev =>
        by_cases h0 : 0 < st.current_gpt_page.getD 0
        · simp [handle_gpt_pagination, hqs, h0]
          omega
        · simp [handle_gpt_pagination, hqs, h0]
          exact hd
    | next =>
        by_cases h0 : st.current_gpt_page.getD 0 < (st.gpt_result_pages.getD []).length - 1
        · simp [handle_gpt_pagination, hqs, h0]
          omega
        · simp [handle_gpt_pagination, hqs, h0]
          exact hd
    | info =>
        simp [handle_gpt_pagination, hqs]
        exact hd
  · intro ha h0
    subst ha
    simp [handle_gpt_pagination, hqs, h0]
  · intro ha h0
    subst ha
    have hnolt : ¬ (st.current_gpt_page.getD 0 < (st.gpt_result_pages.getD []).length - 1) := by
      omega
    simp [handle_gpt_pagination, hqs, hnolt]

/-- A concrete two-page session state sitting on the first page of both
buffers. -/
def pagStState : UState :=
  { transcribing := none
    file_path := none
    language := none
    transcription := some "ab"
    transcription_pages := some ["a", "b"]
    current_page := some 0
    gpt_result_pages := some ["c", "d"]
    current_gpt_page := some 0 }

/-- C4 witness: `prev` on the first page of two leaves both buffers on page
0 with the boundary notice. -/
theorem pagination_bounds_witness :
    ((handle_transcription_pagination pagStState NavAction.prev).1.current_page.getD 0
        < (pagStState.transcription_pages.getD []).length) ∧
    (NavAction.prev = NavAction.prev → pagStState.current_page.getD 0 = 0 →
      handle_transcription_pagination pagStState NavAction.prev
        = (pagStState, PageNotice.alreadyFirst)) ∧
    (NavAction.prev = NavAction.next →
      pagStState.current_page.getD 0 = (pagStState.transcription_pages.getD []).length - 1 →
      handle_transcription_pagination pagStState NavAction.prev
        = (pagStState, PageNotice.alreadyLast)) ∧
    ((handle_gpt_pagination pagStState NavAction.prev).1.current_gpt_page.getD 0
        < (pagStState.gpt_result_pages.getD []).length) ∧
    (NavAction.prev = NavAction.prev → pagStState.current_gpt_page.getD 0 = 0 →
      handle_gpt_pagination pagStState NavAction.prev
        = (pagStState, PageNotice.alreadyFirst)) ∧
    (NavAction.prev = NavAction.next →
      pagStState.current_gpt_page.getD 0 = (pagStState.gpt_result_pages.getD []).length - 1 →
      handle_gpt_pagination pagStState NavAction.prev
        = (pagStState, PageNotice.alreadyLast)) :=
  pagination_bounds pagStState NavAction.prev (by decide) (by decide) (by decide) (by decide)

/-! ### Audio upload handling (claims C6 and C9) -/

/-- The shape of an inbound media message as far as `handle_audio` and
`process_audio_file` inspect it (lines 1007-1101). -/
structure AudioMsg where
  isAudio : Bool
  isVoice : Bool
  isDocument : Bool
  /-- whether `message.document.mime_type` starts with `audio/` -/
  docMimeAudio : Bool
  /-- the lower-cased extension of the document file name -/
  docExt : String
  /-- the `save_path` derived from the timestamp and file name (line 1041) -/
  savePath : String
deriving DecidableEq

/-- The audio extensions accepted for non-`audio/*` documents (line 1078). -/
def audio_exts : List String := [".mp3", ".ogg", ".wav", ".flac", ".m4a", ".aac"]

/-- The reply `handle_audio` / `process_audio_file` sends. -/
inductive AReply where
  /-- the document does not look like an audio file -/
  | notAudioDoc
  /-- an active transcription task already exists (lines 1083-1088) -/
  | busy
  /-- the message carried no media at all -/
  | sendAudioPlease
  /-- the download failed; `transcribing` is cleared (lines 1056-1059) -/
  | downloadError
  /-- the language-selection keyboard was shown (line 1050) -/
  | langKeyboard
deriving DecidableEq

/-- Function `process_audio_file` (lines 1007-1064): pick the media, download it; on
success `show_language_selection` stores `file_path` (line 612) and the
handler stores `file_path` and `transcribing` (lines 1053-1054); on failure
only `transcribing` is cleared.  The third component records whether a
download (a new transcription job) was started. -/
def process_audio_file (st : UState) (m : AudioMsg) (downloadOk : Bool) :
    UState × AReply × Bool :=
  if ¬ (m.isAudio ∨ m.isVoice ∨ m.isDocument) then (st, AReply.sendAudioPlease, false)
  else if downloadOk then
    ({ st with file_path := some m.savePath, transcribing := some true },
      AReply.langKeyboard, true)
  else
    ({ st with transcribing := none }, AReply.downloadError, true)

/-- Handler `handle_audio` (lines 1066-1101): reject non-audio documents, reject
while the user's state contains the `transcribing` key, otherwise set
`transcribing` and process the file. -/
def handle_audio (st : UState) (m : AudioMsg) (downloadOk : Bool) :
    UState × AReply × Bool :=
  if m.isDocument ∧ ¬ m.docMimeAudio ∧ m.docExt ∉ audio_exts then
    (st, AReply.notAudioDoc, false)
  else if st.transcribing.isSome then (st, AReply.busy, false)
  else process_audio_file { st with transcribing := some true } m downloadOk

/-- C6: an audio upload arriving while the user's `transcribing` key is set
is answered with the busy notice, leaves the session state untouched, and
starts no download/job. -/
theorem handle_audio_busy_reject (st : UState) (m : AudioMsg) (downloadOk : Bool)
    (hbusy : st.transcribing.isSome = true)
    (haud : ¬ (m.isDocument ∧ ¬ m.docMimeAudio ∧ m.docExt ∉ audio_exts)) :
    handle_audio st m downloadOk = (st, AReply.busy, false) := by
  rw [handle_audio, if_neg haud, if_pos hbusy]

/-- A plain voice-message upload. -/
def voiceMsg : AudioMsg :=
  { isAudio := false
    isVoice := true
    isDocument := false
    docMimeAudio := false
    docExt := ""
    savePath := "cache/audio_files/1_voice_1.ogg" }

/-- A session with a job in flight. -/
def busyState : UState :=
  { transcribing := some true
    file_path := some "cache/audio_files/1_a.mp3"
    language := none
    transcription := none
    transcription_pages := none
    current_page := none
    gpt_result_pages := none
    current_gpt_page := none }

/-- C6 witness: a voice upload during an in-flight job is rejected. -/
theorem handle_audio_busy_reject_witness :
    handle_audio busyState voiceMsg true = (busyState, AReply.busy, false) :=
  handle_audio_busy_reject busyState voiceMsg true (by decide) (by decide)

/-! ### ChatGPT text processing (claim C7) -/

/-- Effects of one `process_with_chatgpt` call: whether `openai_client` is
configured (`OPENAI_API_KEY` present, lines 63-65), and the outcome of the
chat-completion request when one is made. -/
structure GptEnv where
  configured : Bool
  apiResult : Except String String

/-- Function `process_with_chatgpt` (lines 561-597) returning the result text and the
number of chat-completion API requests performed. -/
def process_with_chatgpt (env : GptEnv) (_text _prompt : String) : String × ℕ :=
  if env.configured = false then
    ("❌ Ошибка: API ключ OpenAI не настроен в конфигурации бота.", 0)
  else
    match env.apiResult with
    | Except.ok content => (content, 1)
    | Except.error e => ("Ошибка при обработке текста: " ++ e, 1)

/-- C7: with no configured OpenAI client the text-processing operation
returns the descriptive error message of line 577 and performs zero
chat-completion API calls. -/
theorem process_with_chatgpt_unconfigured (env : GptEnv) (text prompt : String)
    (h : env.configured = false) :
    process_with_chatgpt env text prompt
      = ("❌ Ошибка: API ключ OpenAI не настроен в конфигурации бота.", 0) := by
  rw [process_with_chatgpt, if_pos h]

/-- C7 witness at a concrete unconfigured environment. -/
theorem process_with_chatgpt_unconfigured_witness :
    process_with_chatgpt { configured := false, apiResult := Except.ok "" } "text" "prompt"
      = ("❌ Ошибка: API ключ OpenAI не настроен в конфигурации бота.", 0) :=
  process_with_chatgpt_unconfigured { configured := false, apiResult := Except.ok "" }
    "text" "prompt" rfl

/-! ### Prompt storage (claim C8) -/

/-- Constant `DEFAULT_PROMPT` (line 71). -/
def DEFAULT_PROMPT : String :=
  "Суммируй следующий текст в краткой форме, выделяя основные мысли и ключевые моменты."

/-- Reply of the `/setprompt` handler. -/
inductive PromptReply where
  /-- no text after the command: show the current prompt -/
  | showCurrent (p : String)
  /-- the new prompt was stored -/
  | saved (p : String)
deriving DecidableEq

/-- Handler `set_prompt_command` (lines 860-891).  The python dict `user_prompts` is
modelled as a total function from usernames to the optionally stored prompt
string; `arg` is the text following `/setprompt`, `none` when absent.
Storing executes `user_prompts[username] = prompt_text` — a single string
per user. -/
def set_prompt_command (store : String → Option String) (u : String)
    (arg : Option String) : (String → Option String) × PromptReply :=
  match arg with
  | none => (store, PromptReply.showCurrent ((store u).getD DEFAULT_PROMPT))
  | some p => (fun v => if v = u then some p else store v, PromptReply.saved p)

/-- The empty prompt store. -/
def emptyPrompts : String → Option String := fun _ => none

/-- C8 counterexample: after `/setprompt p1` then `/setprompt p2`, the store
holds only `p2` for the user — `p1` is not retained anywhere, so no bounded
history of up to 5 previous instructions exists. -/
theorem prompt_history_cex :
    ((set_prompt_command
        (set_prompt_command emptyPrompts "alice" (some "p1")).1
        "alice" (some "p2")).1 "alice" = some "p2") ∧
    ((set_prompt_command
        (set_prompt_command emptyPrompts "alice" (some "p1")).1
        "alice" (some "p2")).1 "alice" ≠ some "p1") := by
  constructor
  · rfl
  · decide

/-- C8 (amended): the prompt store retains exactly the most recently set
instruction string for a user — after setting `qs ++ [p]` in order, the
stored value is `p` alone. -/
theorem set_prompt_retains_last (store : String → Option String) (u : String)
    (qs : List String) (p : String) :
    ((qs ++ [p]).foldl (fun m q => (set_prompt_command m u (some q)).1) store) u
      = some p := by
  induction qs generalizing store with
  | nil => simp [set_prompt_command]
  | cons q qs ih =>
      simpa [List.foldl_cons] using ih ((set_prompt_command store u (some q)).1)

/-! ### Language selection and cancellation (claim C9) -/

/-- Reply of `handle_language_selection`. -/
inductive LsReply where
  /-- the stored file path is missing or the file vanished (lines 658-661) -/
  | fileNotFound
  /-- transcription succeeded: actions menu offered (lines 684-703) -/
  | actionsMenu (text : String)
  /-- transcription failed: error reported, state cleared (lines 704-712) -/
  | failedMsg (err : String)
deriving DecidableEq

/-- Handler `handle_language_selection` (lines 642-722): check the stored file,
store the chosen language, run `transcribe_with_assemblyai`; on success store
the transcription (the `transcribing` key is left as it is); on failure
clear `transcribing`, `file_path` and `language`.  `none` when the
transcription call itself never terminates. -/
def handle_language_selection (st : UState) (lang : String) (fileExists : Bool)
    (tenv : TEnv) : Option (UState × LsReply) :=
  if st.file_path = none ∨ fileExists = false then some (st, LsReply.fileNotFound)
  else
    match transcribe_with_assemblyai tenv with
    | none => none
    | some o =>
        if o.success then
          some ({ st with language := some lang, transcription := some o.text },
            LsReply.actionsMenu o.text)
        else
          some ({ st with language := none, transcribing := none, file_path := none },
            LsReply.failedMsg o.text)

/-- Reply of `/cancel`. -/
inductive CancelReply where
  | cancelled
  | nothingToCancel
deriving DecidableEq

/-- Handler `cancel_command` (lines 993-1005): when `transcribing` is present clear
`transcribing`, `file_path`, `language` and `transcription`. -/
def cancel_command (st : UState) : UState × CancelReply :=
  if st.transcribing.isSome then
    ({ st with
        transcribing := none
        file_path := none
        language := none
        transcription := none }, CancelReply.cancelled)
  else (st, CancelReply.nothingToCancel)

/-- C9: after a successful transcription the `transcribing` flag stays set,
so any further audio upload is answered with the busy notice and changes
nothing, until `/cancel` clears the flag. -/
theorem transcribing_persists_after_success (st : UState) (lang : String)
    (tenv : TEnv) (o : TOutcome) (m : AudioMsg) (downloadOk : Bool)
    (p : UState × LsReply)
    (hflag : st.transcribing = some true)
    (hfp : st.file_path.isSome = true)
    (ht : transcribe_with_assemblyai tenv = some o)
    (hs : o.success = true)
    (hres : handle_language_selection st lang true tenv = some p)
    (haud : ¬ (m.isDocument ∧ ¬ m.docMimeAudio ∧ m.docExt ∉ audio_exts)) :
    p.1.transcribing = some true ∧
    handle_audio p.1 m downloadOk = (p.1, AReply.busy, false) ∧
    (cancel_command p.1).1.transcribing = none := by
  have hnn : ¬ (st.file_path = none ∨ (true : Bool) = false) := by
    intro hor
    rcases hor with h | h
    · rw [h] at hfp
      simp at hfp
    · simp at h
  have hval : handle_language_selection st lang true tenv
      = some ({ st with language := some lang, transcription := some o.text },
          LsReply.actionsMenu o.text) := by
    rw [handle_language_selection, if_neg hnn, ht]
    simp [hs]
  rw [hval] at hres
  have hp : p = ({ st with language := some lang, transcription := some o.text },
      LsReply.actionsMenu o.text) := (Option.some.inj hres).symm
  subst hp
  have hpt : ({ st with language := some lang, transcription := some o.text } : UState).transcribing = some true := hflag
  refine ⟨hpt, ?_, ?_⟩
  · rw [handle_audio, if_neg haud, if_pos (by rw [hpt]; rfl)]
  · rw [cancel_command, if_pos (by rw [hpt]; rfl)]

/-- A small file whose remote transcription completes with text "hello". -/
def tOkEnv : TEnv :=
  { fileSize := 1000
    compressOk := true
    uploadOk := true
    createOk := true
    polls := [PollResp.processing, PollResp.completed "hello" "en"] }

/-- C9 witness: the concrete busy session finishing a successful job keeps
its flag, rejects the next voice upload, and is cleared by `/cancel`. -/
theorem transcribing_persists_after_success_witness :
    ({ busyState with language := some "en", transcription := some "hello" } : UState).transcribing = some true ∧
    handle_audio { busyState with language := some "en", transcription := some "hello" }
        voiceMsg true
      = ({ busyState with language := some "en", transcription := some "hello" },
          AReply.busy, false) ∧
    (cancel_command { busyState with language := some "en", transcription := some "hello" }).1.transcribing = none := by
  have h := transcribing_persists_after_success busyState "en" tOkEnv
    { success := true, text := "hello", finalPath := TPath.input,
      removed := [TPath.input] }
    voiceMsg true
    ({ busyState with language := some "en", transcription := some "hello" },
      LsReply.actionsMenu "hello")
    rfl rfl rfl rfl rfl (by decide)
  exact h

end ChatTNT
